import Mathlib

/-!
Shallow embedding of the maxmind-fetcher repository: the update synchronizer
(src/src/MaxMindFetcher.ts), the digest helper (src/src/util.ts,
getSha256FromBuffer is an external WebCrypto collaborator and is kept
abstract), and the hot-swap database handle (the refcounted LiveMaxMindDb in
src/src/util.ts).  Theorems at the end check the specification claims.
-/

namespace MaxMind

/-- Byte buffers (Uint8Array / ArrayBuffer contents) are modelled as lists of
bytes. -/
abbrev Bytes := List Nat

/-- Outcome of one HTTP fetch performed by MaxMindFetcher.#maxMindRequest: a
successful body, or a non-2xx status code, in which case the code throws a
network error naming the suffix and the status. -/
inductive FetchResult (α : Type) where
  | ok : α → FetchResult α
  | httpError : Nat → FetchResult α
  deriving DecidableEq, Repr

/-- One entry of the decompressed tar stream.  Entries without a readable
stream (directories) are skipped by the loop before their name is recorded. -/
structure TarEntry where
  path : String
  hasReadable : Bool
  content : Bytes
  deriving DecidableEq, Repr

/-- The world one call of MaxMindFetcher.#updateDb runs against: current
contents of the three files (none means the file does not exist), the two
Date.now() readings, the responses of the two maxMindRequest calls, and the
extraction of a downloaded archive into tar entries (gunzip + untar are
external collaborators, modelled as a function of the downloaded bytes). -/
structure Env where
  lastCheckedFile : Option String
  dbFile : Option Bytes
  tempFile : Option Bytes
  nowCheck : Nat
  nowEnd : Nat
  shaFetch : FetchResult String
  tarFetch : FetchResult Bytes
  entries : Bytes → List TarEntry

/-- Errors thrown by MaxMindFetcher.#updateDb: a failed maxMindRequest
(suffix and status code), a sha256 verification failure, and the
no-mmdb-entry-found error carrying the entry names that were seen. -/
inductive CycleError where
  | network : String → Nat → CycleError
  | integrity : CycleError
  | format : List String → CycleError
  deriving DecidableEq, Repr

deriving instance DecidableEq for Except

/-- Observable result of one run of MaxMindFetcher.#updateDb: its outcome and
the state of the three files, the notification events fired at the
onDbChange callbacks, and whether the tar.gz archive fetch and the sha256
digest fetch were performed. -/
structure CycleResult where
  outcome : Except CycleError Unit
  dbFile : Option Bytes
  tempFile : Option Bytes
  checkpointFile : Option String
  notified : List (String × Bytes)
  downloadedArchive : Bool
  fetchedDigest : Bool
  deriving DecidableEq, Repr

/-- TIME_CHECK_UPDATE_INTERVAL_MS from MaxMindFetcher.ts (ten minutes). -/
def timeCheckUpdateIntervalMs : Nat := 10 * 60 * 1000

/-- HASH_CHECK_UPDATE_INTERVAL_MS from MaxMindFetcher.ts (one hour). -/
def hashCheckUpdateIntervalMs : Nat := 60 * 60 * 1000

/-- JavaScript String.prototype.trim over the character list: whitespace is
stripped from both ends. -/
def jsTrim (s : String) : String :=
  String.mk
    (((s.data.dropWhile Char.isWhitespace).reverse.dropWhile
      Char.isWhitespace).reverse)

/-- JavaScript parseInt restricted to the all-digit strings that survive the
non-digit check in #updateDb. -/
def digitsToNat (l : List Char) : Nat :=
  l.foldl (fun acc c => acc * 10 + (c.toNat - 48)) 0

/-- Reading and parsing of lastChecked.txt in #updateDb: a missing file is
treated as the empty string, the content is trimmed, any non-digit character
resets it to the empty string, and parseInt of the empty string is NaN,
modelled as none. -/
def parseLastChecked (file : Option String) : Option Nat :=
  let s0 := jsTrim (file.getD "")
  let s1 := if s0.data.any (fun c => ¬ c.isDigit) then "" else s0
  if s1.data.isEmpty then none else some (digitsToNat s1.data)

/-- The serverSha256 parsing in #updateDb: hashText.split(" ")[0] with a
fallback to the empty string.  Splitting is on the space character only, so
the used digest is the prefix of the body up to the first space. -/
def firstSpaceToken (s : String) : String :=
  String.mk (s.data.takeWhile (fun c => c ≠ ' '))

/-- Modelled from the spec: the first whitespace-delimited token of the
digest response body, the prefix up to the first whitespace character of any
kind.  Used only to compare claim C8 against the source's firstSpaceToken. -/
def firstWhitespaceTokenSpec (s : String) : String :=
  String.mk (s.data.takeWhile (fun c => ¬ c.isWhitespace))

/-- JavaScript String.prototype.endsWith over the character lists. -/
def endsWithStr (s suffix : String) : Bool :=
  suffix.data.reverse.isPrefixOf s.data.reverse

/-- The gate in #updateDb deciding whether to fetch the remote digest:
isNaN(lastChecked) or Date.now() - lastChecked > HASH_CHECK_UPDATE_INTERVAL_MS
(truncated subtraction matches the JS comparison, a negative difference is
not greater than the interval). -/
def needsHashCheck (lastChecked : Option Nat) (now : Nat) : Bool :=
  match lastChecked with
  | none => true
  | some t => decide (now - t > hashCheckUpdateIntervalMs)

/-- The entry loop of #updateDb: entries without a readable stream are
skipped, every other entry's path is recorded, and every entry whose path
ends in .mmdb overwrites the collected database buffer (the same bytes are
streamed to the temp file).  Returns the recorded names and the buffer of
the last matching entry, if any. -/
def scanEntries (es : List TarEntry) : List String × Option Bytes :=
  es.foldl
    (fun acc e =>
      if e.hasReadable then
        if endsWithStr e.path ".mmdb" then (acc.1 ++ [e.path], some e.content)
        else (acc.1 ++ [e.path], acc.2)
      else acc)
    ([], none)

/-- A cycle that skips the update branch: files untouched except that the
checkpoint is rewritten with the second Date.now() reading. -/
def noChangeResult (env : Env) (fetched : Bool) : CycleResult :=
  { outcome := .ok ()
    dbFile := env.dbFile
    tempFile := env.tempFile
    checkpointFile := some (toString env.nowEnd)
    notified := []
    downloadedArchive := false
    fetchedDigest := fetched }

/-- The update branch of #updateDb, entered when a non-empty server digest
differs from the local digest: download the archive (a failure here is not
caught), verify its digest, extract the entries, replace the artifact and
notify, or throw without touching the files. -/
def runUpdateBranch (h : Bytes → String) (env : Env) (serverSha256 : String) :
    CycleResult :=
  match env.tarFetch with
  | .httpError status =>
    { outcome := .error (.network "tar.gz" status)
      dbFile := env.dbFile
      tempFile := env.tempFile
      checkpointFile := env.lastCheckedFile
      notified := []
      downloadedArchive := true
      fetchedDigest := true }
  | .ok tarBuffer =>
    if h tarBuffer ≠ serverSha256 then
      { outcome := .error .integrity
        dbFile := env.dbFile
        tempFile := env.tempFile
        checkpointFile := env.lastCheckedFile
        notified := []
        downloadedArchive := true
        fetchedDigest := true }
    else
      match scanEntries (env.entries tarBuffer) with
      | (names, none) =>
        { outcome := .error (.format names)
          dbFile := env.dbFile
          tempFile := env.tempFile
          checkpointFile := env.lastCheckedFile
          notified := []
          downloadedArchive := true
          fetchedDigest := true }
      | (_, some dbBuffer) =>
        { outcome := .ok ()
          dbFile := some dbBuffer
          tempFile := none
          checkpointFile := some (toString env.nowEnd)
          notified := [(serverSha256, dbBuffer)]
          downloadedArchive := true
          fetchedDigest := true }

/-- The tail of #updateDb once a remote digest string is in hand: enter the
update branch exactly when the digest is non-empty (truthy) and differs from
the local digest (a loose inequality that is true when no local artifact
exists), otherwise only rewrite the checkpoint. -/
def cycleOfDigest (h : Bytes → String) (env : Env) (serverSha256 : String) :
    CycleResult :=
  if serverSha256 ≠ "" ∧ env.dbFile.map h ≠ some serverSha256 then
    runUpdateBranch h env serverSha256
  else
    noChangeResult env true

/-- One run of MaxMindFetcher.#updateDb, mirrored statement by statement:
read and parse lastChecked.txt, digest db.mmdb if present, fetch the remote
digest when the hash-check interval has elapsed (swallowing a network error
iff ignoreNetworkErrors, in which case the checkpoint is not written), run
the update branch when the non-empty remote digest differs from the local
one, and finally write the checkpoint with the current time. -/
def updateDb (h : Bytes → String) (ignoreNetErrors : Bool) (env : Env) :
    CycleResult :=
  let lastChecked := parseLastChecked env.lastCheckedFile
  if needsHashCheck lastChecked env.nowCheck then
    match env.shaFetch with
    | .httpError status =>
      if ignoreNetErrors then
        { outcome := .ok ()
          dbFile := env.dbFile
          tempFile := env.tempFile
          checkpointFile := env.lastCheckedFile
          notified := []
          downloadedArchive := false
          fetchedDigest := true }
      else
        { outcome := .error (.network "tar.gz.sha256" status)
          dbFile := env.dbFile
          tempFile := env.tempFile
          checkpointFile := env.lastCheckedFile
          notified := []
          downloadedArchive := false
          fetchedDigest := true }
    | .ok body =>
      cycleOfDigest h env (firstSpaceToken body)
  else
    noChangeResult env false

/-!
The re-entrancy guard of MaxMindFetcher.#updateDbIfNotRunning: a boolean
flag #updateIsRunning, checked and set with no suspension point in between,
with a try/finally reset once #updateDb settles.  Triggers are the
construction-time call, the setInterval ticks, and any other call; a trigger
that finds the flag set returns immediately.  The ghost counters record how
many cycles were started, are in flight, were dropped, and how many triggers
arrived.
-/

/-- Events hitting the re-entrancy guard: a trigger of #updateDbIfNotRunning,
or the completion of the in-flight #updateDb call. -/
inductive GuardEv where
  | trigger : GuardEv
  | finish : GuardEv
  deriving DecidableEq, Repr

/-- State of the re-entrancy guard plus ghost counters. -/
structure GuardState where
  running : Bool
  inflight : Nat
  started : Nat
  dropped : Nat
  triggers : Nat
  deriving DecidableEq, Repr

/-- One guard event, mirroring #updateDbIfNotRunning: a trigger while
running only bumps the dropped counter (the call returns at once and nothing
is queued); otherwise the flag is set and a cycle starts.  A finish event of
the in-flight cycle clears the flag in the finally block. -/
def guardStep (s : GuardState) : GuardEv → GuardState
  | .trigger =>
    if s.running then
      { s with dropped := s.dropped + 1, triggers := s.triggers + 1 }
    else
      { s with running := true, inflight := s.inflight + 1,
               started := s.started + 1, triggers := s.triggers + 1 }
  | .finish =>
    if s.running then { s with running := false, inflight := s.inflight - 1 }
    else s

/-- Guard state at construction time: flag clear, nothing in flight. -/
def guardInit : GuardState :=
  { running := false, inflight := 0, started := 0, dropped := 0, triggers := 0 }

/-- The guard state after a sequence of events. -/
def guardRun (evs : List GuardEv) : GuardState :=
  evs.foldl guardStep guardInit

/-!
The rewrite gate of MaxMindFetcher: #updateDb opens #rewritePromise before
removing db.mmdb, renames tempDb.mmdb over it, and resolves the promise in a
finally block; getDbBuffer awaits the promise before reading db.mmdb.  The
commit and one concurrent reader are modelled as a small interleaving system
whose atomic steps are the suspension points of the code.
-/

/-- Phase of the commit (remove + rename) inside the rewrite window. -/
inductive CommitPhase where
  | idle : CommitPhase
  | opened : CommitPhase
  | removed : CommitPhase
  | renamed : CommitPhase
  | closedOk : CommitPhase
  | closedErr : CommitPhase
  deriving DecidableEq, Repr

/-- Phase of one concurrent getDbBuffer call: still awaiting, or finished
with the bytes it read (none when db.mmdb did not exist). -/
inductive ReaderPhase where
  | pending : ReaderPhase
  | done : Option Bytes → ReaderPhase
  deriving DecidableEq, Repr

/-- Combined state of the on-disk files, the rewrite window, the commit and
one reader. -/
structure GateSys where
  db : Option Bytes
  temp : Option Bytes
  window : Bool
  c : CommitPhase
  r : ReaderPhase
  deriving DecidableEq, Repr

/-- Start state of a commit: the prior artifact old is on disk, the staged
bytes tnew sit complete in tempDb.mmdb, the window is closed and the reader
has not read yet. -/
def gateInit (old tnew : Bytes) : GateSys :=
  { db := some old, temp := some tnew, window := false,
    c := .idle, r := .pending }

/-- Interleaving steps of the commit and the reader.  The commit opens the
window, removes db.mmdb, renames the temp file and closes the window in a
finally block; a failing remove or rename also closes the window before the
error propagates.  The reader's Deno.readFile runs only once the awaited
window is closed and atomically returns the current db.mmdb content. -/
inductive GateStep : GateSys → GateSys → Prop where
  | openWindow (s : GateSys) : s.c = .idle →
      GateStep s { s with window := true, c := .opened }
  | removeOk (s : GateSys) : s.c = .opened →
      GateStep s { s with db := none, c := .removed }
  | removeFail (s : GateSys) : s.c = .opened →
      GateStep s { s with window := false, c := .closedErr }
  | renameOk (s : GateSys) (b : Bytes) : s.c = .removed → s.temp = some b →
      GateStep s { s with db := some b, temp := none, c := .renamed }
  | renameFail (s : GateSys) : s.c = .removed →
      GateStep s { s with window := false, c := .closedErr }
  | closeWindow (s : GateSys) : s.c = .renamed →
      GateStep s { s with window := false, c := .closedOk }
  | readDb (s : GateSys) : s.window = false → s.r = .pending →
      GateStep s { s with r := .done s.db }

/-- States reachable from the start of a commit with prior artifact old and
staged bytes tnew. -/
inductive GateReach (old tnew : Bytes) : GateSys → Prop where
  | init : GateReach old tnew (gateInit old tnew)
  | step {s s2 : GateSys} : GateReach old tnew s → GateStep s s2 →
      GateReach old tnew s2

/-- Inductive invariant of the gate system: what each commit phase implies
for the window and the files, and what any finished read can have seen. -/
def GateInv (old tnew : Bytes) (s : GateSys) : Prop :=
  (s.c = .idle → s.window = false ∧ s.db = some old ∧ s.temp = some tnew) ∧
  (s.c = .opened → s.window = true ∧ s.db = some old ∧ s.temp = some tnew) ∧
  (s.c = .removed → s.window = true ∧ s.db = none ∧ s.temp = some tnew) ∧
  (s.c = .renamed → s.window = true ∧ s.db = some tnew) ∧
  (s.c = .closedOk → s.window = false ∧ s.db = some tnew) ∧
  (s.c = .closedErr → s.window = false ∧ (s.db = some old ∨ s.db = none)) ∧
  (∀ res, s.r = .done res →
    res = some old ∨ res = some tnew ∨ (res = none ∧ s.c = .closedErr))

/-!
The commit block of #updateDb (lines 226-244) as a straight-line function:
nested try/catch tolerating only a NotFound from Deno.remove, and a finally
that resolves the rewrite promise and clears it on every path.
-/

/-- Errors of the commit block other than the tolerated NotFound. -/
inductive CommitError where
  | removeError : CommitError
  | renameError : CommitError
  deriving DecidableEq, Repr

/-- Final state of the commit block: its outcome, the two files, and whether
the rewrite window is still open afterwards. -/
structure CommitResult where
  outcome : Except CommitError Unit
  db : Option Bytes
  temp : Option Bytes
  window : Bool
  deriving DecidableEq, Repr

/-- The commit block of #updateDb: open the rewrite window, remove db.mmdb
(a NotFound, that is db absent, is tolerated; any other failure rethrows),
rename tempDb.mmdb to db.mmdb, and in a finally block resolve and clear the
rewrite promise, so the window is closed on every path before an error
propagates. -/
def commitReplace (db : Option Bytes) (temp : Bytes) (removeFails : Bool)
    (renameOk : Bool) : CommitResult :=
  if removeFails then
    { outcome := .error .removeError, db := db, temp := some temp,
      window := false }
  else if renameOk then
    { outcome := .ok (), db := some temp, temp := none, window := false }
  else
    { outcome := .error .renameError, db := none, temp := some temp,
      window := false }

end MaxMind

namespace LiveDb

/-!
The refcounted hot-swap handle LiveMaxMindDb of src/src/util.ts.  Database
instances are identified by the generation number at which new Maxmind(...)
created them.  The WeakMap #pendingDbLookups becomes the function pending,
the Set #discardedDbs the list discarded, and every db.free() call appends
the freed generation to the event list disposed.  A lookup through #useDb
captures the db resolved from #dbPromise (the instance current when the
lookup starts) and increments its pending count with no suspension point in
between; the awaited lookup body is the suspension during which #loadDb may
run; the finally block decrements the count and frees the instance when it
was discarded and the count reached zero.
-/

/-- One in-flight #useDb call: the generation it captured from #dbPromise,
and as a ghost field the generation that was current when it started. -/
structure Lookup where
  ver : Nat
  curAtStart : Nat
  deriving DecidableEq, Repr

/-- State of the hot-swap handle: the current generation (none before the
first load), the next fresh generation, the pending-lookup counts, the
discarded set, the dispose event list, and the in-flight lookups. -/
structure State where
  current : Option Nat
  nextGen : Nat
  pending : Nat → Nat
  discarded : List Nat
  disposed : List Nat
  lookups : List Lookup

/-- Handle state at construction: nothing loaded yet. -/
def initState : State :=
  { current := none, nextGen := 0, pending := fun _ => 0,
    discarded := [], disposed := [], lookups := [] }

/-- The body of #loadDb: if an instance is current and its pending count is
positive it is moved to the discarded set, otherwise it is freed at once;
then the freshly loaded instance becomes current (and #dbPromise resolves to
it). -/
def loadDbStep (s : State) : State :=
  match s.current with
  | none =>
    { s with current := some s.nextGen, nextGen := s.nextGen + 1 }
  | some old =>
    if 0 < s.pending old then
      { s with current := some s.nextGen, nextGen := s.nextGen + 1,
               discarded := old :: s.discarded }
    else
      { s with current := some s.nextGen, nextGen := s.nextGen + 1,
               disposed := old :: s.disposed }

/-- The entry of #useDb once #dbPromise has resolved to the current instance
g: record the lookup and increment g's pending count. -/
def startLookup (s : State) (g : Nat) : State :=
  { s with
    pending := fun x => if x = g then s.pending x + 1 else s.pending x,
    lookups := Lookup.mk g g :: s.lookups }

/-- The finally block of #useDb for the in-flight lookup l: decrement the
count of the captured instance, and if it reached zero and the instance was
discarded, free it and remove it from the discarded set. -/
def finishLookup (s : State) (l : Lookup) : State :=
  let newP := s.pending l.ver - 1
  let pend := fun x => if x = l.ver then newP else s.pending x
  if newP = 0 ∧ l.ver ∈ s.discarded then
    { s with pending := pend, lookups := s.lookups.erase l,
             disposed := l.ver :: s.disposed,
             discarded := s.discarded.erase l.ver }
  else
    { s with pending := pend, lookups := s.lookups.erase l }

/-- Atomic steps of the handle, at the suspension granularity of the
single-threaded runtime: a #loadDb call, the synchronous entry of a #useDb
call against the current instance, and the synchronous finally block of an
in-flight #useDb call. -/
inductive Step : State → State → Prop where
  | load (s : State) : Step s (loadDbStep s)
  | start (s : State) (g : Nat) : s.current = some g →
      Step s (startLookup s g)
  | finish (s : State) (l : Lookup) : l ∈ s.lookups →
      Step s (finishLookup s l)

/-- Handle states reachable from construction. -/
inductive Reachable : State → Prop where
  | init : Reachable initState
  | step {s s2 : State} : Reachable s → Step s s2 → Reachable s2

/-- Inductive invariant of the hot-swap handle. -/
structure Inv (s : State) : Prop where
  disposedNodup : s.disposed.Nodup
  currentNotDisposed : ∀ g, s.current = some g → g ∉ s.disposed
  disposedPendingZero : ∀ g ∈ s.disposed, s.pending g = 0
  discardedNotDisposed : ∀ g ∈ s.discarded, g ∉ s.disposed
  currentNotDiscarded : ∀ g, s.current = some g → g ∉ s.discarded
  discardedNodup : s.discarded.Nodup
  freshCurrent : ∀ g, s.current = some g → g < s.nextGen
  freshDiscarded : ∀ g ∈ s.discarded, g < s.nextGen
  freshDisposed : ∀ g ∈ s.disposed, g < s.nextGen
  lookupVer : ∀ l ∈ s.lookups, l.ver = l.curAtStart

/-- Concrete interleaving used as the witness for claim C1: load version 0,
start a lookup against it, load version 1 mid-lookup (version 0 becomes
discarded, not freed), then finish the lookup (version 0 freed exactly
once). -/
def traceState : State :=
  finishLookup (loadDbStep (startLookup (loadDbStep initState) 0))
    (Lookup.mk 0 0)

end LiveDb

namespace MaxMind

/-- Invariant of the re-entrancy guard: never more than one cycle in
flight, the flag tracks the in-flight count exactly, and every trigger
either started a cycle or was dropped. -/
def GuardInv (s : GuardState) : Prop :=
  s.inflight ≤ 1 ∧ (s.running = true ↔ s.inflight = 1) ∧
    s.started + s.dropped = s.triggers

/-- Final state of the concrete gate trace used as the witness for claim
C6: the commit completed and the reader read the new artifact. -/
def gateFinal : GateSys :=
  { db := some [2], temp := none, window := false, c := .closedOk,
    r := .done (some [2]) }

/-- Digest capability used by several witnesses: digest "aa" for the
one-byte buffer [0], digest "xx" for every other buffer. -/
def hashA : Bytes → String := fun b => if b = [0] then "aa" else "xx"

/-- Digest capability returning "zz" for every buffer. -/
def hashZ : Bytes → String := fun _ => "zz"

/-- Archive extraction yielding no entries at all. -/
def noEntries : Bytes → List TarEntry := fun _ => []

/-- Archive extraction yielding only a csv entry, no .mmdb entry. -/
def csvEntries : Bytes → List TarEntry :=
  fun _ =>
    [{ path := "GeoLite2-Country.csv", hasReadable := true, content := [7] }]

/-- World for the claim C2 failing input: never checked, no local artifact,
digest fetch succeeds with "aa", archive download answers HTTP 503. -/
def envC2 : Env :=
  { lastCheckedFile := none, dbFile := none, tempFile := none,
    nowCheck := 0, nowEnd := 5, shaFetch := .ok "aa",
    tarFetch := .httpError 503, entries := noEntries }

/-- World for the claim C3 witness: digest mismatch between the downloaded
bytes (digest "zz") and the remote digest "aa". -/
def envC3 : Env :=
  { lastCheckedFile := none, dbFile := none, tempFile := some [9],
    nowCheck := 0, nowEnd := 6, shaFetch := .ok "aa",
    tarFetch := .ok [1], entries := noEntries }

/-- World for the claim C4 witness: the local artifact [0] digests to "aa",
which is also the first space token of the digest response, so nothing is
downloaded (the archive fetch would fail if it were attempted). -/
def envC4 : Env :=
  { lastCheckedFile := none, dbFile := some [0], tempFile := none,
    nowCheck := 0, nowEnd := 7, shaFetch := .ok "aa bb",
    tarFetch := .httpError 500, entries := noEntries }

/-- World for the claim C8 counterexample: the digest response body is
"aa\nbb" whose first whitespace-delimited token "aa" equals the local
artifact digest, yet the code still downloads. -/
def envC8 : Env :=
  { lastCheckedFile := none, dbFile := some [0], tempFile := none,
    nowCheck := 0, nowEnd := 8, shaFetch := .ok "aa\nbb",
    tarFetch := .ok [1], entries := noEntries }

/-- World for the claim C8 amended witness: a digest body with a trailing
second token after the space. -/
def envC8a : Env :=
  { lastCheckedFile := none, dbFile := none, tempFile := none,
    nowCheck := 0, nowEnd := 3, shaFetch := .ok "aa x",
    tarFetch := .httpError 1, entries := noEntries }

/-- World for the claim C9 witness: verified download [1] (digest "xx"
matches the remote digest) whose archive holds only a csv entry. -/
def envC9 : Env :=
  { lastCheckedFile := none, dbFile := none, tempFile := some [9],
    nowCheck := 0, nowEnd := 9, shaFetch := .ok "xx",
    tarFetch := .ok [1], entries := csvEntries }

/-- World for the claim C10 witness: no local artifact at all and an empty
digest response body. -/
def envC10 : Env :=
  { lastCheckedFile := none, dbFile := none, tempFile := none,
    nowCheck := 0, nowEnd := 10, shaFetch := .ok "",
    tarFetch := .httpError 404, entries := noEntries }

end MaxMind

namespace LiveDb

theorem inv_init : Inv initState := by
  constructor <;> simp [initState]

theorem inv_load (s : State) (h : Inv s) : Inv (loadDbStep s) := by
  unfold loadDbStep
  split
  · exact {
      disposedNodup := h.disposedNodup
      currentNotDisposed := by
        intro g hg hmem
        obtain rfl := Option.some.inj hg
        exact absurd (h.freshDisposed _ hmem) (lt_irrefl _)
      disposedPendingZero := h.disposedPendingZero
      discardedNotDisposed := h.discardedNotDisposed
      currentNotDiscarded := by
        intro g hg hmem
        obtain rfl := Option.some.inj hg
        exact absurd (h.freshDiscarded _ hmem) (lt_irrefl _)
      discardedNodup := h.discardedNodup
      freshCurrent := by
        intro g hg
        obtain rfl := Option.some.inj hg
        exact Nat.lt_succ_self _
      freshDiscarded := fun g hg => Nat.lt_succ_of_lt (h.freshDiscarded g hg)
      freshDisposed := fun g hg => Nat.lt_succ_of_lt (h.freshDisposed g hg)
      lookupVer := h.lookupVer }
  · rename_i old hc
    by_cases hp : 0 < s.pending old
    · rw [if_pos hp]
      exact {
        disposedNodup := h.disposedNodup
        currentNotDisposed := by
          intro g hg hmem
          obtain rfl := Option.some.inj hg
          exact absurd (h.freshDisposed _ hmem) (lt_irrefl _)
        disposedPendingZero := h.disposedPendingZero
        discardedNotDisposed := by
          intro g hg hmem
          rcases List.mem_cons.mp hg with heq | hg2
          · subst heq
            exact h.currentNotDisposed _ hc hmem
          · exact h.discardedNotDisposed g hg2 hmem
        currentNotDiscarded := by
          intro g hg hmem
          obtain rfl := Option.some.inj hg
          rcases List.mem_cons.mp hmem with heq | hmem2
          · exact absurd (heq ▸ h.freshCurrent old hc) (lt_irrefl _)
          · exact absurd (h.freshDiscarded _ hmem2) (lt_irrefl _)
        discardedNodup :=
          List.nodup_cons.mpr ⟨h.currentNotDiscarded old hc, h.discardedNodup⟩
        freshCurrent := by
          intro g hg
          obtain rfl := Option.some.inj hg
          exact Nat.lt_succ_self _
        freshDiscarded := by
          intro g hg
          rcases List.mem_cons.mp hg with heq | hg2
          · subst heq
            exact Nat.lt_succ_of_lt (h.freshCurrent _ hc)
          · exact Nat.lt_succ_of_lt (h.freshDiscarded g hg2)
        freshDisposed := fun g hg => Nat.lt_succ_of_lt (h.freshDisposed g hg)
        lookupVer := h.lookupVer }
    · rw [if_neg hp]
      exact {
        disposedNodup :=
          List.nodup_cons.mpr ⟨h.currentNotDisposed old hc, h.disposedNodup⟩
        currentNotDisposed := by
          intro g hg hmem
          obtain rfl := Option.some.inj hg
          rcases List.mem_cons.mp hmem with heq | hmem2
          · exact absurd (heq ▸ h.freshCurrent old hc) (lt_irrefl _)
          · exact absurd (h.freshDisposed _ hmem2) (lt_irrefl _)
        disposedPendingZero := by
          intro g hg
          rcases List.mem_cons.mp hg with heq | hg2
          · subst heq
            exact Nat.eq_zero_of_not_pos hp
          · exact h.disposedPendingZero g hg2
        discardedNotDisposed := by
          intro g hg hmem
          rcases List.mem_cons.mp hmem with heq | hmem2
          · subst heq
            exact h.currentNotDiscarded _ hc hg
          · exact h.discardedNotDisposed g hg hmem2
        currentNotDiscarded := by
          intro g hg
          obtain rfl := Option.some.inj hg
          intro hmem
          exact absurd (h.freshDiscarded _ hmem) (lt_irrefl _)
        discardedNodup := h.discardedNodup
        freshCurrent := by
          intro g hg
          obtain rfl := Option.some.inj hg
          exact Nat.lt_succ_self _
        freshDiscarded := fun g hg => Nat.lt_succ_of_lt (h.freshDiscarded g hg)
        freshDisposed := by
          intro g hg
          rcases List.mem_cons.mp hg with heq | hg2
          · subst heq
            exact Nat.lt_succ_of_lt (h.freshCurrent _ hc)
          · exact Nat.lt_succ_of_lt (h.freshDisposed g hg2)
        lookupVer := h.lookupVer }

theorem inv_start (s : State) (g : Nat) (h : Inv s) (hc : s.current = some g) :
    Inv (startLookup s g) := by
  unfold startLookup
  exact {
    disposedNodup := h.disposedNodup
    currentNotDisposed := h.currentNotDisposed
    disposedPendingZero := by
      intro x hx
      have hxg : x ≠ g := by
        rintro rfl
        exact h.currentNotDisposed x hc hx
      simpa [hxg] using h.disposedPendingZero x hx
    discardedNotDisposed := h.discardedNotDisposed
    currentNotDiscarded := h.currentNotDiscarded
    discardedNodup := h.discardedNodup
    freshCurrent := h.freshCurrent
    freshDiscarded := h.freshDiscarded
    freshDisposed := h.freshDisposed
    lookupVer := by
      intro l hl
      rcases List.mem_cons.mp hl with heq | hl2
      · subst heq
        rfl
      · exact h.lookupVer l hl2 }

theorem inv_finish (s : State) (l : Lookup) (h : Inv s) (_hl : l ∈ s.lookups) :
    Inv (finishLookup s l) := by
  simp only [finishLookup]
  by_cases hcond : s.pending l.ver - 1 = 0 ∧ l.ver ∈ s.discarded
  · rw [if_pos hcond]
    exact {
      disposedNodup :=
        List.nodup_cons.mpr
          ⟨h.discardedNotDisposed l.ver hcond.2, h.disposedNodup⟩
      currentNotDisposed := by
        intro g hg hmem
        rcases List.mem_cons.mp hmem with heq | hmem2
        · subst heq
          exact h.currentNotDiscarded _ hg hcond.2
        · exact h.currentNotDisposed g hg hmem2
      disposedPendingZero := by
        intro x hx
        rcases List.mem_cons.mp hx with heq | hx2
        · subst heq
          simpa using hcond.1
        · have hxv : x ≠ l.ver := by
            rintro rfl
            exact h.discardedNotDisposed _ hcond.2 hx2
          simpa [hxv] using h.disposedPendingZero x hx2
      discardedNotDisposed := by
        intro g hg hmem
        obtain ⟨hgv, hgd⟩ := (h.discardedNodup.mem_erase_iff).mp hg
        rcases List.mem_cons.mp hmem with heq | hmem2
        · exact hgv heq
        · exact h.discardedNotDisposed g hgd hmem2
      currentNotDiscarded := fun g hg hmem =>
        h.currentNotDiscarded g hg (List.mem_of_mem_erase hmem)
      discardedNodup := h.discardedNodup.erase _
      freshCurrent := h.freshCurrent
      freshDiscarded := fun g hg =>
        h.freshDiscarded g (List.mem_of_mem_erase hg)
      freshDisposed := by
        intro g hg
        rcases List.mem_cons.mp hg with heq | hg2
        · subst heq
          exact h.freshDiscarded _ hcond.2
        · exact h.freshDisposed g hg2
      lookupVer := fun l2 hl2 =>
        h.lookupVer l2 (List.mem_of_mem_erase hl2) }
  · rw [if_neg hcond]
    exact {
      disposedNodup := h.disposedNodup
      currentNotDisposed := h.currentNotDisposed
      disposedPendingZero := by
        intro x hx
        by_cases hxv : x = l.ver
        · simp [hxv, h.disposedPendingZero x hx, hxv ▸ h.disposedPendingZero x hx]
        · simpa [hxv] using h.disposedPendingZero x hx
      discardedNotDisposed := h.discardedNotDisposed
      currentNotDiscarded := h.currentNotDiscarded
      discardedNodup := h.discardedNodup
      freshCurrent := h.freshCurrent
      freshDiscarded := h.freshDiscarded
      freshDisposed := h.freshDisposed
      lookupVer := fun l2 hl2 =>
        h.lookupVer l2 (List.mem_of_mem_erase hl2) }

theorem inv_reachable (s : State) (h : Reachable s) : Inv s := by
  induction h with
  | init => exact inv_init
  | step _ hstep ih =>
    cases hstep with
    | load => exact inv_load _ ih
    | start g hg => exact inv_start _ g ih hg
    | finish l hl => exact inv_finish _ l ih hl


theorem traceState_reachable : Reachable traceState := by
  have h0 : Reachable initState := Reachable.init
  have h1 := Reachable.step h0 (Step.load initState)
  have h2 := Reachable.step h1 (Step.start _ 0 rfl)
  have h3 := Reachable.step h2 (Step.load _)
  have h4 := Reachable.step h3 (Step.finish _ (Lookup.mk 0 0) (by decide))
  exact h4

end LiveDb
namespace MaxMind

theorem guardInv_init : GuardInv guardInit := by
  refine ⟨by simp [guardInit], ?_, by simp [guardInit]⟩
  simp [guardInit]

theorem guardInv_step (s : GuardState) (e : GuardEv) (h : GuardInv s) :
    GuardInv (guardStep s e) := by
  obtain ⟨h1, h2, h3⟩ := h
  cases e with
  | trigger =>
    by_cases hr : s.running = true
    · simp only [guardStep]
      rw [if_pos hr]
      refine ⟨h1, h2, ?_⟩
      show s.started + (s.dropped + 1) = s.triggers + 1
      omega
    · have hne : s.inflight ≠ 1 := fun he => hr (h2.mpr he)
      have h0 : s.inflight = 0 := by omega
      simp only [guardStep]
      rw [if_neg hr]
      refine ⟨?_, ?_, ?_⟩
      · show s.inflight + 1 ≤ 1
        omega
      · show true = true ↔ s.inflight + 1 = 1
        simp [h0]
      · show s.started + 1 + s.dropped = s.triggers + 1
        omega
  | finish =>
    by_cases hr : s.running = true
    · have h1' : s.inflight = 1 := h2.mp hr
      simp only [guardStep]
      rw [if_pos hr]
      refine ⟨?_, ?_, h3⟩
      · show s.inflight - 1 ≤ 1
        omega
      · show false = true ↔ s.inflight - 1 = 1
        simp [h1']
    · simp only [guardStep]
      rw [if_neg hr]
      exact ⟨h1, h2, h3⟩

theorem guardInv_run (evs : List GuardEv) : GuardInv (guardRun evs) := by
  unfold guardRun
  have main : ∀ (l : List GuardEv) (s : GuardState),
      GuardInv s → GuardInv (l.foldl guardStep s) := by
    intro l
    induction l with
    | nil => intro s hs; exact hs
    | cons e t ih => intro s hs; exact ih _ (guardInv_step s e hs)
  exact main evs guardInit guardInv_init

theorem gateInv_init (old tnew : Bytes) : GateInv old tnew (gateInit old tnew) := by
  refine ⟨fun _ => ⟨rfl, rfl, rfl⟩, ?_, ?_, ?_, ?_, ?_, ?_⟩ <;>
    simp [gateInit, GateInv]

theorem gateInv_step (old tnew : Bytes) (s s2 : GateSys)
    (h : GateInv old tnew s) (hs : GateStep s s2) : GateInv old tnew s2 := by
  obtain ⟨hidle, hopen, hrem, hren, hok, herr, hread⟩ := h
  cases hs with
  | openWindow hc =>
    obtain ⟨hw, hdb, htemp⟩ := hidle hc
    refine ⟨by simp, fun _ => ⟨rfl, hdb, htemp⟩, by simp, by simp, by simp,
      by simp, ?_⟩
    intro res hr
    rcases hread res hr with h | h | ⟨h1, h2⟩
    · exact Or.inl h
    · exact Or.inr (Or.inl h)
    · rw [hc] at h2
      simp at h2
  | removeOk hc =>
    obtain ⟨hw, hdb, htemp⟩ := hopen hc
    refine ⟨by simp, by simp, fun _ => ⟨hw, rfl, htemp⟩, by simp, by simp,
      by simp, ?_⟩
    intro res hr
    rcases hread res hr with h | h | ⟨h1, h2⟩
    · exact Or.inl h
    · exact Or.inr (Or.inl h)
    · rw [hc] at h2
      simp at h2
  | removeFail hc =>
    obtain ⟨hw, hdb, htemp⟩ := hopen hc
    refine ⟨by simp, by simp, by simp, by simp, by simp,
      fun _ => ⟨rfl, Or.inl hdb⟩, ?_⟩
    intro res hr
    rcases hread res hr with h | h | ⟨h1, h2⟩
    · exact Or.inl h
    · exact Or.inr (Or.inl h)
    · rw [hc] at h2
      simp at h2
  | renameOk b hc ht =>
    obtain ⟨hw, hdb, htemp⟩ := hrem hc
    have hb : b = tnew := by
      rw [htemp] at ht
      exact (Option.some.inj ht).symm
    refine ⟨by simp, by simp, by simp, fun _ => ⟨hw, by rw [hb]⟩, by simp,
      by simp, ?_⟩
    intro res hr
    rcases hread res hr with h | h | ⟨h1, h2⟩
    · exact Or.inl h
    · exact Or.inr (Or.inl h)
    · rw [hc] at h2
      simp at h2
  | renameFail hc =>
    obtain ⟨hw, hdb, htemp⟩ := hrem hc
    refine ⟨by simp, by simp, by simp, by simp, by simp,
      fun _ => ⟨rfl, Or.inr hdb⟩, ?_⟩
    intro res hr
    rcases hread res hr with h | h | ⟨h1, h2⟩
    · exact Or.inl h
    · exact Or.inr (Or.inl h)
    · rw [hc] at h2
      simp at h2
  | closeWindow hc =>
    obtain ⟨hw, hdb⟩ := hren hc
    refine ⟨by simp, by simp, by simp, by simp, fun _ => ⟨rfl, hdb⟩,
      by simp, ?_⟩
    intro res hr
    rcases hread res hr with h | h | ⟨h1, h2⟩
    · exact Or.inl h
    · exact Or.inr (Or.inl h)
    · rw [hc] at h2
      simp at h2
  | readDb hw hp =>
    refine ⟨hidle, hopen, hrem, hren, hok, herr, ?_⟩
    intro res hr
    have hres : res = s.db := (ReaderPhase.done.inj hr).symm
    subst hres
    cases hc : s.c with
    | idle => exact Or.inl (hidle hc).2.1
    | opened =>
      have hw2 := (hopen hc).1
      rw [hw2] at hw
      simp at hw
    | removed =>
      have hw2 := (hrem hc).1
      rw [hw2] at hw
      simp at hw
    | renamed =>
      have hw2 := (hren hc).1
      rw [hw2] at hw
      simp at hw
    | closedOk => exact Or.inr (Or.inl (hok hc).2)
    | closedErr =>
      rcases (herr hc).2 with h | h
      · exact Or.inl h
      · exact Or.inr (Or.inr ⟨h, rfl⟩)


theorem gateInv_reachable (old tnew : Bytes) (s : GateSys)
    (h : GateReach old tnew s) : GateInv old tnew s := by
  induction h with
  | init => exact gateInv_init old tnew
  | step _ hs ih => exact gateInv_step old tnew _ _ ih hs

theorem gateTrace_reachable : GateReach [1] [2] gateFinal := by
  have h0 : GateReach [1] [2] (gateInit [1] [2]) := GateReach.init
  have h1 := GateReach.step h0 (GateStep.openWindow _ rfl)
  have h2 := GateReach.step h1 (GateStep.removeOk _ rfl)
  have h3 := GateReach.step h2 (GateStep.renameOk _ [2] rfl rfl)
  have h4 := GateReach.step h3 (GateStep.closeWindow _ rfl)
  have h5 := GateReach.step h4 (GateStep.readDb _ rfl rfl)
  exact h5

end MaxMind
/-- Claim C1: for every sequence of interleaved operations on the hot-swap
handle, a database version with an in-flight lookup (pending count above 0)
is not disposed until that lookup completes, even if a newer version is
loaded mid-lookup; each version is freed at most once, only after it has
stopped being current and its pending count is 0; and every lookup runs
against the version that was current when it started. -/
theorem c1_hot_swap_no_use_after_dispose (s : LiveDb.State)
    (hs : LiveDb.Reachable s) :
    (∀ g, 0 < s.pending g → g ∉ s.disposed) ∧
    (∀ g, s.disposed.count g ≤ 1) ∧
    (∀ g ∈ s.disposed, s.current ≠ some g ∧ s.pending g = 0) ∧
    (∀ l ∈ s.lookups, l.ver = l.curAtStart) := by
  have h := LiveDb.inv_reachable s hs
  refine ⟨?_, ?_, ?_, h.lookupVer⟩
  · intro g hp hmem
    rw [h.disposedPendingZero g hmem] at hp
    exact absurd hp (lt_irrefl 0)
  · intro g
    exact List.nodup_iff_count_le_one.mp h.disposedNodup g
  · intro g hmem
    refine ⟨?_, h.disposedPendingZero g hmem⟩
    intro hcur
    exact h.currentNotDisposed g hcur hmem

/-- Witness for claim C1 at the concrete trace load, start-lookup, load,
finish-lookup: version 0 was freed (once) only after being replaced and
after its count dropped back to 0. -/
theorem c1_hot_swap_no_use_after_dispose_witness :
    (0 : Nat) ∈ LiveDb.traceState.disposed ∧
    LiveDb.traceState.current ≠ some 0 ∧
    LiveDb.traceState.pending 0 = 0 ∧
    LiveDb.traceState.disposed.count 0 ≤ 1 := by
  have h := c1_hot_swap_no_use_after_dispose LiveDb.traceState
    LiveDb.traceState_reachable
  have hmem : (0 : Nat) ∈ LiveDb.traceState.disposed := by decide
  exact ⟨hmem, (h.2.2.1 0 hmem).1, (h.2.2.1 0 hmem).2, h.2.1 0⟩

/-- Claim C2 is a code bug: with ignoreNetworkErrors set, a network failure
of the digest fetch is swallowed without writing the checkpoint, but a
network failure of the archive download fetch is raised anyway, because the
tar.gz request sits outside the try/catch.  This theorem evaluates both
cases of the failing input. -/
theorem c2_download_network_error_raised :
    (MaxMind.updateDb MaxMind.hashZ true MaxMind.envC2).outcome =
      Except.error (MaxMind.CycleError.network "tar.gz" 503) ∧
    (MaxMind.updateDb MaxMind.hashZ true MaxMind.envC2).checkpointFile =
      none ∧
    (MaxMind.updateDb MaxMind.hashZ true
        { MaxMind.envC2 with shaFetch := .httpError 503 }).outcome =
      Except.ok () ∧
    (MaxMind.updateDb MaxMind.hashZ true
        { MaxMind.envC2 with shaFetch := .httpError 503 }).checkpointFile =
      none := by
  exact ⟨rfl, rfl, rfl, rfl⟩

/-- Claim C3: whenever the digest of the downloaded archive differs from
the fetched remote digest, the cycle fails with the integrity error and
leaves db.mmdb, tempDb.mmdb and lastChecked.txt untouched, notifying
nobody. -/
theorem c3_integrity_mismatch_no_touch (h : MaxMind.Bytes → String)
    (ign : Bool) (env : MaxMind.Env) (body : String) (tarBuf : MaxMind.Bytes)
    (h1 : MaxMind.needsHashCheck
      (MaxMind.parseLastChecked env.lastCheckedFile) env.nowCheck = true)
    (h2 : env.shaFetch = .ok body)
    (h3 : MaxMind.firstSpaceToken body ≠ "")
    (h4 : env.dbFile.map h ≠ some (MaxMind.firstSpaceToken body))
    (h5 : env.tarFetch = .ok tarBuf)
    (h6 : h tarBuf ≠ MaxMind.firstSpaceToken body) :
    MaxMind.updateDb h ign env =
      { outcome := .error .integrity
        dbFile := env.dbFile
        tempFile := env.tempFile
        checkpointFile := env.lastCheckedFile
        notified := []
        downloadedArchive := true
        fetchedDigest := true } := by
  simp [MaxMind.updateDb, MaxMind.cycleOfDigest, MaxMind.runUpdateBranch,
    h1, h2, h3, h4, h5, h6]

/-- Witness for claim C3: remote digest "aa", downloaded bytes digest "zz",
cycle errors with the integrity error and every file is unchanged. -/
theorem c3_integrity_mismatch_no_touch_witness :
    MaxMind.hashZ [1] ≠ MaxMind.firstSpaceToken "aa" ∧
    MaxMind.updateDb MaxMind.hashZ false MaxMind.envC3 =
      { outcome := .error .integrity
        dbFile := none
        tempFile := some [9]
        checkpointFile := none
        notified := []
        downloadedArchive := true
        fetchedDigest := true } := by
  refine ⟨by decide, ?_⟩
  exact c3_integrity_mismatch_no_touch MaxMind.hashZ false MaxMind.envC3
    "aa" [1] rfl rfl (by decide) (by decide) rfl (by decide)

/-- Claim C4: when the local artifact digests to exactly the fetched remote
digest, the cycle downloads nothing, leaves the artifact and temp file
alone, notifies nobody, and still rewrites the checkpoint with the current
time. -/
theorem c4_no_change_cycle (h : MaxMind.Bytes → String) (ign : Bool)
    (env : MaxMind.Env) (body : String) (localBuf : MaxMind.Bytes)
    (h1 : MaxMind.needsHashCheck
      (MaxMind.parseLastChecked env.lastCheckedFile) env.nowCheck = true)
    (h2 : env.shaFetch = .ok body)
    (h3 : env.dbFile = some localBuf)
    (h4 : h localBuf = MaxMind.firstSpaceToken body) :
    MaxMind.updateDb h ign env =
      { outcome := .ok ()
        dbFile := env.dbFile
        tempFile := env.tempFile
        checkpointFile := some (toString env.nowEnd)
        notified := []
        downloadedArchive := false
        fetchedDigest := true } := by
  simp [MaxMind.updateDb, MaxMind.cycleOfDigest, MaxMind.noChangeResult,
    h1, h2, h3, h4]

/-- Witness for claim C4: local artifact [0] digests to "aa", the digest
response is "aa bb", and the cycle only rewrites the checkpoint. -/
theorem c4_no_change_cycle_witness :
    MaxMind.envC4.dbFile = some [0] ∧
    MaxMind.hashA [0] = MaxMind.firstSpaceToken "aa bb" ∧
    MaxMind.updateDb MaxMind.hashA false MaxMind.envC4 =
      { outcome := .ok ()
        dbFile := some [0]
        tempFile := none
        checkpointFile := some "7"
        notified := []
        downloadedArchive := false
        fetchedDigest := true } := by
  refine ⟨rfl, by decide, ?_⟩
  exact c4_no_change_cycle MaxMind.hashA false MaxMind.envC4 "aa bb" [0]
    rfl rfl rfl (by decide)

/-- Claim C5: for every event sequence hitting the re-entrancy guard, at
most one check cycle is in flight, the flag tracks the in-flight count
exactly, every trigger either started a cycle or was dropped, and a trigger
arriving while a cycle runs only bumps the dropped counter, returning
immediately without queueing anything. -/
theorem c5_at_most_one_inflight_cycle :
    (∀ evs : List MaxMind.GuardEv,
      (MaxMind.guardRun evs).inflight ≤ 1 ∧
      ((MaxMind.guardRun evs).running = true ↔
        (MaxMind.guardRun evs).inflight = 1) ∧
      (MaxMind.guardRun evs).started + (MaxMind.guardRun evs).dropped =
        (MaxMind.guardRun evs).triggers) ∧
    (∀ s : MaxMind.GuardState, s.running = true →
      MaxMind.guardStep s .trigger =
        { s with dropped := s.dropped + 1, triggers := s.triggers + 1 }) := by
  constructor
  · intro evs
    exact MaxMind.guardInv_run evs
  · intro s hr
    simp only [MaxMind.guardStep]
    rw [if_pos hr]

/-- Witness for claim C5: two triggers in a row leave one cycle in flight,
and a trigger against a running guard only bumps the counters. -/
theorem c5_at_most_one_inflight_cycle_witness :
    (MaxMind.guardRun [.trigger, .trigger]).inflight ≤ 1 ∧
    (MaxMind.GuardState.mk true 1 1 0 1).running = true ∧
    MaxMind.guardStep (MaxMind.GuardState.mk true 1 1 0 1) .trigger =
      MaxMind.GuardState.mk true 1 1 1 2 := by
  refine ⟨(c5_at_most_one_inflight_cycle.1 _).1, rfl, ?_⟩
  exact c5_at_most_one_inflight_cycle.2 (MaxMind.GuardState.mk true 1 1 0 1)
    rfl

/-- Claim C6: a getDbBuffer call interleaved with a commit (remove plus
rename inside the rewrite window) can only read once the window is closed,
and, provided the commit did not fail, it returns either the complete prior
artifact or the complete new artifact, never a missing or partial file. -/
theorem c6_reader_sees_complete_artifact (old tnew : MaxMind.Bytes)
    (s : MaxMind.GateSys) (hreach : MaxMind.GateReach old tnew s)
    (res : Option MaxMind.Bytes) (hres : s.r = .done res)
    (hok : s.c ≠ .closedErr) :
    res = some old ∨ res = some tnew := by
  have h := MaxMind.gateInv_reachable old tnew s hreach
  rcases h.2.2.2.2.2.2 res hres with h1 | h1 | ⟨h1, h2⟩
  · exact Or.inl h1
  · exact Or.inr h1
  · exact absurd h2 hok

/-- Witness for claim C6: in the concrete trace where the reader waits out
a full successful commit, it reads the new artifact [2]. -/
theorem c6_reader_sees_complete_artifact_witness :
    MaxMind.gateFinal.r = MaxMind.ReaderPhase.done (some [2]) ∧
    MaxMind.gateFinal.c ≠ MaxMind.CommitPhase.closedErr ∧
    (some ([2] : MaxMind.Bytes) = some [1] ∨
      some ([2] : MaxMind.Bytes) = some [2]) := by
  refine ⟨rfl, by decide, ?_⟩
  exact c6_reader_sees_complete_artifact [1] [2] MaxMind.gateFinal
    MaxMind.gateTrace_reachable (some [2]) rfl (by decide)

/-- Claim C7: the commit block closes the rewrite window on every path, in
particular before a remove failure (other than the tolerated missing file)
or a rename failure propagates, while a missing old artifact alone is
tolerated and the commit succeeds. -/
theorem c7_commit_always_closes_window (db : Option MaxMind.Bytes)
    (temp : MaxMind.Bytes) (rf rn : Bool) :
    (MaxMind.commitReplace db temp rf rn).window = false ∧
    (MaxMind.commitReplace db temp true rn).outcome =
      Except.error MaxMind.CommitError.removeError ∧
    (MaxMind.commitReplace db temp false false).outcome =
      Except.error MaxMind.CommitError.renameError ∧
    (MaxMind.commitReplace none temp false true).outcome = Except.ok () := by
  refine ⟨?_, rfl, rfl, rfl⟩
  cases rf <;> cases rn <;> rfl

/-- Counterexample to claim C8: the code splits the digest response body on
the space character only, so for the body "aa\nbb" the digest used is
"aa\nbb", not the first whitespace-delimited token "aa"; with a local
artifact whose digest is "aa" the cycle downloads the archive even though
the claim says the digests match. -/
theorem c8_space_token_counterexample :
    MaxMind.firstSpaceToken "aa\nbb" = "aa\nbb" ∧
    MaxMind.firstWhitespaceTokenSpec "aa\nbb" = "aa" ∧
    MaxMind.hashA [0] = "aa" ∧
    MaxMind.envC8.dbFile = some [0] ∧
    MaxMind.envC8.shaFetch = MaxMind.FetchResult.ok "aa\nbb" ∧
    (MaxMind.updateDb MaxMind.hashA false MaxMind.envC8).downloadedArchive =
      true ∧
    (MaxMind.updateDb MaxMind.hashA false MaxMind.envC8).outcome =
      Except.error MaxMind.CycleError.integrity := by
  exact ⟨rfl, rfl, rfl, rfl, rfl, rfl, rfl⟩

/-- Claim C8 amended: the remote digest used for comparison is the first
space-delimited token of the .sha256 response body (the prefix up to the
first space character; tabs and newlines do not delimit): once the digest
response arrives, the whole cycle behaves as cycleOfDigest applied to that
token. -/
theorem c8_amended_digest_is_space_token (h : MaxMind.Bytes → String)
    (ign : Bool) (env : MaxMind.Env) (body : String)
    (h1 : MaxMind.needsHashCheck
      (MaxMind.parseLastChecked env.lastCheckedFile) env.nowCheck = true)
    (h2 : env.shaFetch = .ok body) :
    MaxMind.updateDb h ign env =
      MaxMind.cycleOfDigest h env (MaxMind.firstSpaceToken body) := by
  simp [MaxMind.updateDb, h1, h2]

/-- Witness for the amended claim C8 at the body "aa x". -/
theorem c8_amended_digest_is_space_token_witness :
    MaxMind.envC8a.shaFetch = MaxMind.FetchResult.ok "aa x" ∧
    MaxMind.updateDb MaxMind.hashZ false MaxMind.envC8a =
      MaxMind.cycleOfDigest MaxMind.hashZ MaxMind.envC8a
        (MaxMind.firstSpaceToken "aa x") := by
  refine ⟨rfl, ?_⟩
  exact c8_amended_digest_is_space_token MaxMind.hashZ false MaxMind.envC8a
    "aa x" rfl rfl

/-- Claim C9: a verified download whose archive contains no .mmdb entry
makes the cycle fail with the format error listing exactly the entry names
that were seen, leaving every file untouched and notifying nobody. -/
theorem c9_no_mmdb_entry_format_error (h : MaxMind.Bytes → String)
    (ign : Bool) (env : MaxMind.Env) (body : String) (tarBuf : MaxMind.Bytes)
    (names : List String)
    (h1 : MaxMind.needsHashCheck
      (MaxMind.parseLastChecked env.lastCheckedFile) env.nowCheck = true)
    (h2 : env.shaFetch = .ok body)
    (h3 : MaxMind.firstSpaceToken body ≠ "")
    (h4 : env.dbFile.map h ≠ some (MaxMind.firstSpaceToken body))
    (h5 : env.tarFetch = .ok tarBuf)
    (h6 : h tarBuf = MaxMind.firstSpaceToken body)
    (h7 : MaxMind.scanEntries (env.entries tarBuf) = (names, none)) :
    MaxMind.updateDb h ign env =
      { outcome := .error (.format names)
        dbFile := env.dbFile
        tempFile := env.tempFile
        checkpointFile := env.lastCheckedFile
        notified := []
        downloadedArchive := true
        fetchedDigest := true } := by
  simp [MaxMind.updateDb, MaxMind.cycleOfDigest, MaxMind.runUpdateBranch,
    h1, h2, h3, h4, h5, h6, h7]

/-- Witness for claim C9, which is also the spec scenario: an archive with
only GeoLite2-Country.csv raises the format error listing exactly that
entry, and db.mmdb is unchanged. -/
theorem c9_no_mmdb_entry_format_error_witness :
    MaxMind.scanEntries (MaxMind.csvEntries [1]) =
      (["GeoLite2-Country.csv"], none) ∧
    MaxMind.updateDb MaxMind.hashA false MaxMind.envC9 =
      { outcome := .error (.format ["GeoLite2-Country.csv"])
        dbFile := none
        tempFile := some [9]
        checkpointFile := none
        notified := []
        downloadedArchive := true
        fetchedDigest := true } := by
  refine ⟨rfl, ?_⟩
  exact c9_no_mmdb_entry_format_error MaxMind.hashA false MaxMind.envC9
    "xx" [1] ["GeoLite2-Country.csv"] rfl rfl (by decide) (by decide) rfl
    (by decide) rfl

/-- Claim C10: a successful digest fetch whose body yields the empty first
space token (empty body, or body starting with a space) skips the whole
update branch even when no local artifact exists: no download, files and
subscribers untouched, and the checkpoint still written with the current
time. -/
theorem c10_empty_digest_skips_update (h : MaxMind.Bytes → String)
    (ign : Bool) (env : MaxMind.Env) (body : String)
    (h1 : MaxMind.needsHashCheck
      (MaxMind.parseLastChecked env.lastCheckedFile) env.nowCheck = true)
    (h2 : env.shaFetch = .ok body)
    (h3 : MaxMind.firstSpaceToken body = "") :
    MaxMind.updateDb h ign env =
      { outcome := .ok ()
        dbFile := env.dbFile
        tempFile := env.tempFile
        checkpointFile := some (toString env.nowEnd)
        notified := []
        downloadedArchive := false
        fetchedDigest := true } := by
  simp [MaxMind.updateDb, MaxMind.cycleOfDigest, MaxMind.noChangeResult,
    h1, h2, h3]

/-- Witness for claim C10: empty digest body, no local artifact, checkpoint
still written. -/
theorem c10_empty_digest_skips_update_witness :
    MaxMind.envC10.dbFile = none ∧
    MaxMind.firstSpaceToken "" = "" ∧
    MaxMind.updateDb MaxMind.hashZ true MaxMind.envC10 =
      { outcome := .ok ()
        dbFile := none
        tempFile := none
        checkpointFile := some "10"
        notified := []
        downloadedArchive := false
        fetchedDigest := true } := by
  refine ⟨rfl, rfl, ?_⟩
  exact c10_empty_digest_skips_update MaxMind.hashZ true MaxMind.envC10 ""
    rfl rfl rfl
